import Mathlib

/-!
Verification of the workout generator and playback engine of the
road-to-halo-zwift BLE cycling emulator.

The C++ sources are shallowly embedded:
* `float`/`double` arithmetic is modelled over `ℚ` (the code only adds,
  multiplies, divides and compares; casts to unsigned integers are modelled
  with `Int.floor`, which agrees with C truncation on the non-negative
  values arising here);
* machine integers (`uint8_t`/`uint16_t`/`uint32_t`) are modelled as `Nat`;
  the `% 65536` reduction is written where the source relies on wrap-around
  (crank event time);
* the Arduino pseudo-random source is an abstract stream `Nat → Nat`;
  `random(0, n)` becomes `stream k % n`, consumed at sequentially increasing
  indices exactly as the source consumes draws;
* the C library `sqrt` (an irrational real operation) is modelled by an
  executable integer square root at 10^-6 precision (`sqrtQ`).
-/

namespace RoadToHalo

/-- `struct WorkoutSegment` of road_to_halo.ino / part_001: a duration in
seconds with start/end power multipliers (fractions of FTP). -/
structure WorkoutSegment where
  duration : Nat
  powerLow : ℚ
  powerHigh : ℚ
deriving Repr, DecidableEq, Inhabited

/-- Total of the `duration` fields of a plan (what `setup()` accumulates
into `totalWorkoutDuration`). -/
def sumDur (l : List WorkoutSegment) : Nat := (l.map (·.duration)).sum

/-- `randomFloat(minVal, maxVal)` of the source:
`minVal + random(0,10000)/10000.0 * (maxVal - minVal)` where the Arduino
`random(0, 10000)` draw is `r % 10000`. -/
def randomFloat (r : Nat) (minVal maxVal : ℚ) : ℚ :=
  minVal + ((r % 10000 : Nat) : ℚ) / 10000 * (maxVal - minVal)

/-- `randomInt(minVal, maxVal)` of the source:
`minVal + random(0, maxVal - minVal + 1)`. -/
def randomInt (r : Nat) (minVal maxVal : Nat) : Nat :=
  minVal + r % (maxVal - minVal + 1)

/-- `calculateSegmentTSS(powerStart, powerEnd, duration)`:
trapezoid average ratio, `TSS = duration * IF^2 * 100 / 3600`. -/
def calculateSegmentTSS (powerStart powerEnd : ℚ) (duration : Nat) : ℚ :=
  let averagePower := (powerStart + powerEnd) / 2
  (duration * averagePower * averagePower * 100) / 3600

/-- Arduino `constrain(x, lo, hi)`. -/
def constrainQ (x lo hi : ℚ) : ℚ :=
  if x < lo then lo else if hi < x then hi else x

/-- The post-normalization clamp of generateCustomWorkout:
`if (p < 0.30f) p = 0.30f; if (p > 1.50f) p = 1.50f`. -/
def clampPower (p : ℚ) : ℚ :=
  let p1 := if p < 3/10 then 3/10 else p
  if 3/2 < p1 then 3/2 else p1

/-- Fueled integer square root: `isqrtAux fuel n` is `Nat.sqrt n` whenever
`n < 4 ^ fuel`, by the classical `isqrt (n) ∈ {2r, 2r+1}` recursion with
`r = isqrt (n / 4)`.  Written with explicit fuel so that it reduces inside
`decide`. -/
def isqrtAux : Nat → Nat → Nat
  | 0, _ => 0
  | fuel + 1, n =>
    let r := isqrtAux fuel (n / 4)
    if (2 * r + 1) * (2 * r + 1) ≤ n then 2 * r + 1 else 2 * r

/-- Integer square root with enough fuel for all inputs below `4 ^ 64`. -/
def isqrt (n : Nat) : Nat := isqrtAux 64 n

/-- Model of the C library `sqrt` on rationals: exact on perfect squares,
and accurate to `10 ^ (-6)` otherwise (the float code carries far less
precision than that). -/
def sqrtQ (x : ℚ) : ℚ :=
  (isqrt (x.num.toNat * x.den * 10 ^ 12) : ℚ) / ((x.den : ℚ) * 10 ^ 6)

/-! ## Generator of road_to_halo.ino: `generateCustomWorkout`

The configurable constants `CUSTOM_DURATION_MINUTES`, `MAX_CUSTOM_SEGMENTS`
and `CUSTOM_TARGET_TSS` are the configuration of the spec; they are taken
as parameters. -/

/-- Configuration of the simple generator (`CUSTOM_DURATION_MINUTES`,
`MAX_CUSTOM_SEGMENTS`, `CUSTOM_TARGET_TSS`). -/
structure CustomConfig where
  durationMinutes : Nat
  numSegments : Nat
  targetTSS : ℚ
deriving Repr, DecidableEq

/-- Warmup of generateCustomWorkout: 10 minutes, 30% to 100% FTP. -/
def warmupSegment : WorkoutSegment := ⟨600, 3/10, 1⟩

/-- Cooldown of generateCustomWorkout: 10 minutes, 60% down to 30% FTP. -/
def cooldownSegment : WorkoutSegment := ⟨600, 3/5, 3/10⟩

/-- One iteration of the boundary-sampling loop of generateCustomWorkout:
given the previously sampled boundaries in reverse order (most recent
first, the list starts at `[1.00]`) and the next free stream index, draw
`segmentPowers[i]`.  Returns the drawn boundary and the next stream index.
The first two source branches (`lastPower >= 1.40f`, `lastPower >= 1.20f`)
both force a recovery draw; the third forces a moderate draw after three
consecutive boundaries at or below 0.75; otherwise a band is chosen by a
`randomFloat(0,1)` draw with weights 30/40/20/10. -/
def nextPowerDraw (stream : Nat → Nat) (k : Nat) (prevRev : List ℚ) : ℚ × Nat :=
  match prevRev with
  | [] => (1, k)
  | lastPower :: rest =>
    if 7/5 ≤ lastPower then
      (randomFloat (stream k) (2/5) (3/4), k + 1)
    else if 6/5 ≤ lastPower then
      (randomFloat (stream k) (2/5) (3/4), k + 1)
    else if 3 ≤ (lastPower :: rest).length ∧
        ∀ p ∈ (lastPower :: rest).take 3, p ≤ 3/4 then
      (randomFloat (stream k) (3/4) (11/10), k + 1)
    else
      let rand := randomFloat (stream k) 0 1
      if rand < 3/10 then
        (randomFloat (stream (k + 1)) (2/5) (3/4), k + 2)
      else if rand < 7/10 then
        (randomFloat (stream (k + 1)) (3/4) (21/20), k + 2)
      else if rand < 9/10 then
        (randomFloat (stream (k + 1)) (21/20) (6/5), k + 2)
      else
        (randomFloat (stream (k + 1)) (6/5) (7/5), k + 2)

/-- The boundary-sampling loop (`for i = 1; i < numIntervalSegments; i++`),
with the accumulator kept in reverse order. -/
def genPowersAux (stream : Nat → Nat) : Nat → List ℚ → Nat → List ℚ × Nat
  | 0, accRev, k => (accRev, k)
  | fuel + 1, accRev, k =>
    let d := nextPowerDraw stream k accRev
    genPowersAux stream fuel (d.1 :: accRev) d.2

/-- The full `segmentPowers` array of generateCustomWorkout before
normalization: `segmentPowers[0] = 1.00`, then `numSegments - 1` sampled
interior boundaries, then `segmentPowers[numSegments] = 0.60`. -/
def segmentPowers (stream : Nat → Nat) (numSegments : Nat) : List ℚ :=
  (genPowersAux stream (numSegments - 1) [1] 0).1.reverse ++ [3/5]

/-- The `for` loop creating interval segments from consecutive boundary
pairs: segment `i` gets boundaries `segmentPowers[i]`, `segmentPowers[i+1]`. -/
def buildSegments : List Nat → List ℚ → List WorkoutSegment
  | d :: ds, b0 :: b1 :: bs => ⟨d, b0, b1⟩ :: buildSegments ds (b1 :: bs)
  | _, _ => []

/-- `currentTSS` of generateCustomWorkout: the sum of `calculateSegmentTSS`
over the interval (main-block) segments only. -/
def mainBlockTSS (segs : List WorkoutSegment) : ℚ :=
  (segs.map (fun s => calculateSegmentTSS s.powerLow s.powerHigh s.duration)).sum

/-- The TSS-normalization loop body of generateCustomWorkout: boundaries at
interior indices `1 ≤ i ≤ numSegments - 1` are multiplied by the factor and
clamped; index 0 (warmup junction) and the last index (cooldown junction)
are left untouched. -/
def normalizePowersAux (factor : ℚ) : Nat → Nat → List ℚ → List ℚ
  | _, _, [] => []
  | i, n, p :: ps =>
    (if 1 ≤ i ∧ i + 1 < n then clampPower (p * factor) else p) ::
      normalizePowersAux factor (i + 1) n ps

/-- TSS normalization over the whole `segmentPowers` array. -/
def normalizePowers (factor : ℚ) (ps : List ℚ) : List ℚ :=
  normalizePowersAux factor 0 ps.length ps

/-- `generateCustomWorkout()` of road_to_halo.ino: fixed warmup, exactly
`numSegments` interval segments of identical duration
`durationMinutes * 60 / numSegments` (integer division, no remainder
redistribution), fixed cooldown; boundaries sampled by `segmentPowers`,
then rescaled once by `sqrt(targetTSS / currentTSS)` and clamped whenever
`currentTSS > 0`. -/
def generateCustomWorkout (cfg : CustomConfig) (stream : Nat → Nat) :
    List WorkoutSegment :=
  let intervalDurationSeconds := cfg.durationMinutes * 60
  let segmentDuration := intervalDurationSeconds / cfg.numSegments
  let mainDurs := List.replicate cfg.numSegments segmentDuration
  let powers := segmentPowers stream cfg.numSegments
  let currentTSS := mainBlockTSS (buildSegments mainDurs powers)
  let finalPowers :=
    if 0 < currentTSS then
      normalizePowers (sqrtQ (cfg.targetTSS / currentTSS)) powers
    else powers
  warmupSegment :: buildSegments mainDurs finalPowers ++ [cooldownSegment]

/-! ## Generator of part_001: `generateWorkout` (auto branch) -/

/-- The power-profile part of one custom segment of part_001's
`generateWorkout`: an interval type is drawn by `random(0, 4)`, then
`powerLow`/`powerHigh` are drawn for that type and constrained to
`[0.30, 1.50]`.  Returns the segment (with the given duration) and the
next stream index. -/
def genSegmentB (stream : Nat → Nat) (k dur : Nat) : WorkoutSegment × Nat :=
  let t := stream k % 4
  let lo : ℚ :=
    if t = 0 then randomFloat (stream (k + 1)) (7/10) (21/20)
    else if t = 1 then randomFloat (stream (k + 1)) (3/5) (17/20)
    else if t = 2 then randomFloat (stream (k + 1)) (11/10) (13/10)
    else randomFloat (stream (k + 1)) (1/2) (3/4)
  let hi : ℚ :=
    if t = 0 then lo + randomFloat (stream (k + 2)) (-1/50) (1/50)
    else if t = 1 then lo + randomFloat (stream (k + 2)) (3/20) (7/20)
    else lo + randomFloat (stream (k + 2)) (-1/20) (1/20)
  (⟨dur, constrainQ lo (3/10) (3/2), constrainQ hi (3/10) (3/2)⟩, k + 3)

/-- The custom-segment loop of part_001's `generateWorkout`, with `fuel`
custom segments still to produce.  A non-final segment draws a duration in
`±30%` of the average (float products truncated to `uint16_t`), clamped so
at least 60 seconds remain for each later custom segment; the final custom
segment absorbs all remaining duration. -/
def genMainB (stream : Nat → Nat) (avg : Nat) :
    Nat → Nat → Nat → List WorkoutSegment × Nat
  | 0, _, k => ([], k)
  | 1, remaining, k =>
    let s := genSegmentB stream k remaining
    ([s.1], s.2)
  | n + 2, remaining, k =>
    let minDuration := 7 * avg / 10
    let maxDuration := 13 * avg / 10
    let d0 := randomInt (stream k) minDuration maxDuration
    let bound := remaining - (n + 1) * 60
    let d := if bound < d0 then bound else d0
    let s := genSegmentB stream (k + 1) d
    let rest := genMainB stream avg (n + 1) (remaining - d) s.2
    (s.1 :: rest.1, rest.2)

/-- `generateWorkout()` of part_001 in auto mode: 15-minute warmup ramp
(30%→70%), `totalSegments - 2` custom segments spanning
`durationMinutes * 60` seconds, 10-minute cooldown ramp (70%→30%). -/
def generateWorkoutB (durationMinutes totalSegments : Nat)
    (stream : Nat → Nat) : List WorkoutSegment :=
  let mainDuration := durationMinutes * 60
  let customSegments := totalSegments - 2
  let avg := mainDuration / customSegments
  let mains := (genMainB stream avg customSegments mainDuration 0).1
  ⟨900, 3/10, 7/10⟩ :: mains ++ [⟨600, 7/10, 3/10⟩]

/-! ## Plan-level predicates -/

/-- Continuity of a plan: each segment ends at the power ratio the next one
starts with. -/
def continuousPlan (segs : List WorkoutSegment) : Prop :=
  List.Chain' (fun a b => a.powerHigh = b.powerLow) segs

/-- No two consecutive boundary values are both at or above 120% FTP. -/
def noConsecutiveHigh (bs : List ℚ) : Prop :=
  List.Chain' (fun a b => ¬(6/5 ≤ a ∧ 6/5 ≤ b)) bs

/-- The boundary-ratio sequence of the main block of a full plan (the plan
minus warmup and cooldown): the start ratio of the first main segment
followed by the end ratios of all main segments. -/
def planMainBoundaries (plan : List WorkoutSegment) : List ℚ :=
  match (plan.drop 1).dropLast with
  | [] => []
  | s :: rest => s.powerLow :: (s :: rest).map (·.powerHigh)

/-! ## Helper lemmas -/

theorem randomFloat_le {lo hi : ℚ} (r : Nat) (h : lo ≤ hi) :
    randomFloat r lo hi ≤ hi := by
  have h1 : ((r % 10000 : Nat) : ℚ) / 10000 ≤ 1 := by
    rw [div_le_one (by norm_num)]
    exact_mod_cast le_of_lt (Nat.mod_lt r (by norm_num))
  have h0 : (0 : ℚ) ≤ ((r % 10000 : Nat) : ℚ) / 10000 := by positivity
  unfold randomFloat
  nlinarith

theorem le_randomFloat {lo hi : ℚ} (r : Nat) (h : lo ≤ hi) :
    lo ≤ randomFloat r lo hi := by
  have h0 : (0 : ℚ) ≤ ((r % 10000 : Nat) : ℚ) / 10000 := by positivity
  unfold randomFloat
  nlinarith

theorem genPowersAux_shape (stream : Nat → Nat) :
    ∀ (fuel : Nat) (accRev : List ℚ) (k : Nat),
      ∃ l, (genPowersAux stream fuel accRev k).1 = l ++ accRev := by
  intro fuel
  induction fuel with
  | zero => intro accRev k; exact ⟨[], rfl⟩
  | succ n ih =>
    intro accRev k
    obtain ⟨l, hl⟩ := ih ((nextPowerDraw stream k accRev).1 :: accRev)
      (nextPowerDraw stream k accRev).2
    exact ⟨l ++ [(nextPowerDraw stream k accRev).1], by
      simpa [genPowersAux] using hl⟩

theorem genPowersAux_length (stream : Nat → Nat) :
    ∀ (fuel : Nat) (accRev : List ℚ) (k : Nat),
      (genPowersAux stream fuel accRev k).1.length = fuel + accRev.length := by
  intro fuel
  induction fuel with
  | zero => intro accRev k; simp [genPowersAux]
  | succ n ih =>
    intro accRev k
    rw [genPowersAux, ih]
    simp
    omega

/-- The sampled boundary array always has the form
`1.00 :: interior ++ [0.60]` with `numSegments - 1` interior values. -/
theorem segmentPowers_shape (stream : Nat → Nat) (numSegments : Nat) :
    ∃ mid, segmentPowers stream numSegments = 1 :: (mid ++ [3/5]) ∧
      mid.length = numSegments - 1 := by
  obtain ⟨l, hl⟩ := genPowersAux_shape stream (numSegments - 1) [1] 0
  have hlen := genPowersAux_length stream (numSegments - 1) [1] 0
  refine ⟨l.reverse, ?_, ?_⟩
  · unfold segmentPowers
    rw [hl]
    simp
  · rw [hl] at hlen
    simp at hlen
    simpa using hlen

theorem buildSegments_sumDur :
    ∀ (ds : List Nat) (bs : List ℚ), ds.length < bs.length →
      sumDur (buildSegments ds bs) = ds.sum := by
  intro ds
  induction ds with
  | nil => intro bs _; simp [buildSegments, sumDur]
  | cons d ds ih =>
    intro bs hlen
    match bs with
    | [] => simp at hlen
    | [b] => simp at hlen
    | b0 :: b1 :: bs =>
      have := ih (b1 :: bs) (by simpa using Nat.lt_of_succ_lt_succ hlen)
      simp only [buildSegments, sumDur, List.map_cons, List.sum_cons] at this ⊢
      omega

theorem buildSegments_length :
    ∀ (ds : List Nat) (bs : List ℚ), ds.length < bs.length →
      (buildSegments ds bs).length = ds.length := by
  intro ds
  induction ds with
  | nil => intro bs _; simp [buildSegments]
  | cons d ds ih =>
    intro bs hlen
    match bs with
    | [] => simp at hlen
    | [b] => simp at hlen
    | b0 :: b1 :: bs =>
      have := ih (b1 :: bs) (by simpa using Nat.lt_of_succ_lt_succ hlen)
      simp [buildSegments, this]

theorem normalizePowersAux_length (factor : ℚ) :
    ∀ (ps : List ℚ) (i n : Nat),
      (normalizePowersAux factor i n ps).length = ps.length := by
  intro ps
  induction ps with
  | nil => intro i n; rfl
  | cons p ps ih => intro i n; simp [normalizePowersAux, ih]

theorem normalizePowers_length (factor : ℚ) (ps : List ℚ) :
    (normalizePowers factor ps).length = ps.length :=
  normalizePowersAux_length factor ps 0 ps.length

theorem normalizePowersAux_interior (factor : ℚ) (b : ℚ) :
    ∀ (mid : List ℚ) (i n : Nat), 1 ≤ i → i + mid.length + 1 = n →
      normalizePowersAux factor i n (mid ++ [b]) =
        mid.map (fun p => clampPower (p * factor)) ++ [b] := by
  intro mid
  induction mid with
  | nil =>
    intro i n h1 hn
    simp only [List.length_nil] at hn
    simp only [List.nil_append, normalizePowersAux, List.map_nil]
    rw [if_neg (by omega)]
  | cons p mid ih =>
    intro i n h1 hn
    simp only [List.length_cons] at hn
    simp only [List.cons_append, normalizePowersAux, List.map_cons, List.append_eq]
    have hc : 1 ≤ i ∧ i + 1 < n := by omega
    rw [if_pos hc, ih (i + 1) n (by omega) (by omega)]

/-- Normalization scales and clamps exactly the interior boundaries and
leaves the two anchor boundaries untouched. -/
theorem normalizePowers_eq (factor a b : ℚ) (mid : List ℚ) :
    normalizePowers factor (a :: (mid ++ [b])) =
      a :: (mid.map (fun p => clampPower (p * factor)) ++ [b]) := by
  unfold normalizePowers
  simp only [normalizePowersAux]
  rw [if_neg (by omega)]
  rw [normalizePowersAux_interior factor b mid 1 (a :: (mid ++ [b])).length
    (by omega)
    (by simp only [List.length_cons, List.length_append, List.length_nil]; omega)]

/-- The delivered plan of generateCustomWorkout, for any configuration and
stream: a warmup, `numSegments` equal-duration interval segments built from
a boundary list of the anchored shape, and a cooldown. -/
theorem generateCustomWorkout_eq (cfg : CustomConfig) (stream : Nat → Nat) :
    ∃ mid : List ℚ, mid.length = cfg.numSegments - 1 ∧
      generateCustomWorkout cfg stream =
        warmupSegment ::
          buildSegments
            (List.replicate cfg.numSegments
              (cfg.durationMinutes * 60 / cfg.numSegments))
            (1 :: (mid ++ [3/5])) ++ [cooldownSegment] := by
  obtain ⟨mid, hmid, hlen⟩ := segmentPowers_shape stream cfg.numSegments
  unfold generateCustomWorkout
  simp only
  split
  · refine ⟨mid.map (fun p => clampPower (p *
      sqrtQ (cfg.targetTSS / mainBlockTSS
        (buildSegments
          (List.replicate cfg.numSegments
            (cfg.durationMinutes * 60 / cfg.numSegments))
          (segmentPowers stream cfg.numSegments))))), by simp [hlen], ?_⟩
    rw [hmid, normalizePowers_eq]
  · exact ⟨mid, hlen, by rw [hmid]⟩

theorem buildSegments_chain' (ds : List Nat) :
    ∀ bs : List ℚ,
      List.Chain' (fun a b => a.powerHigh = b.powerLow) (buildSegments ds bs) := by
  induction ds with
  | nil => intro bs; cases bs <;> simp [buildSegments]
  | cons d ds ih =>
    intro bs
    match bs with
    | [] => simp [buildSegments]
    | [b0] => simp [buildSegments]
    | b0 :: b1 :: bs =>
      have h := ih (b1 :: bs)
      rw [buildSegments, List.chain'_cons']
      refine ⟨?_, h⟩
      intro y hy
      cases ds with
      | nil => simp [buildSegments] at hy
      | cons d2 ds2 =>
        cases bs with
        | nil => simp [buildSegments] at hy
        | cons b2 bs2 =>
          rw [buildSegments] at hy
          simp only [List.head?_cons, Option.mem_def, Option.some.injEq] at hy
          rw [← hy]

theorem buildSegments_getLast (ds : List Nat) :
    ∀ bs : List ℚ, ds ≠ [] → ds.length + 1 = bs.length →
      ((buildSegments ds bs).getLast?).map (·.powerHigh) = bs.getLast? := by
  induction ds with
  | nil => intro bs h _; exact absurd rfl h
  | cons d ds ih =>
    intro bs _ hlen
    match ds, bs with
    | [], [b0, b1] => rfl
    | [], b0 :: b1 :: b2 :: bs => simp at hlen
    | d2 :: ds2, b0 :: b1 :: bs =>
      have hlen2 : (d2 :: ds2).length + 1 = (b1 :: bs).length := by
        simp at hlen ⊢; omega
      match bs, hlen2 with
      | b2 :: bs2, hlen2 =>
        have h := ih (b1 :: b2 :: bs2) (by simp) hlen2
        rw [buildSegments] at h ⊢
        rw [List.getLast?_cons_cons]
        rw [buildSegments]
        rw [List.getLast?_cons_cons] at h ⊢
        exact h

/-- A plan of warmup, boundary-built main block and cooldown is continuous
whenever the boundary list is anchored at 1.00 and 0.60. -/
theorem plan_continuous_general (ds : List Nat) (bs : List ℚ)
    (hne : ds ≠ []) (hlen : ds.length + 1 = bs.length)
    (hhead : bs.head? = some 1) (hlast : bs.getLast? = some (3/5)) :
    List.Chain' (fun a b => a.powerHigh = b.powerLow)
      (warmupSegment :: buildSegments ds bs ++ [cooldownSegment]) := by
  match ds, bs with
  | [], _ => exact absurd rfl hne
  | d :: ds2, [] => simp at hlen
  | d :: ds2, [b0] => simp at hlen
  | d :: ds2, b0 :: b1 :: bs2 =>
    simp only [List.head?_cons, Option.some.injEq] at hhead
    subst hhead
    rw [List.chain'_append, buildSegments]
    refine ⟨?_, List.chain'_singleton _, ?_⟩
    · rw [List.chain'_cons]
      refine ⟨rfl, ?_⟩
      rw [← buildSegments]
      exact buildSegments_chain' _ _
    · intro x hx y hy
      simp only [List.head?_cons, Option.mem_def, Option.some.injEq] at hy
      subst hy
      rw [List.getLast?_cons_cons] at hx
      have hgl := buildSegments_getLast (d :: ds2) (1 :: b1 :: bs2) (by simp)
        (by simpa using hlen)
      rw [hlast, buildSegments] at hgl
      rw [Option.mem_def] at hx
      rw [hx] at hgl
      simp only [Option.map_some', Option.some.injEq] at hgl
      show x.powerHigh = cooldownSegment.powerLow
      rw [hgl]
      rfl

/-! ## C1: total duration of generated plans -/

theorem genMainB_sumDur (stream : Nat → Nat) (avg : Nat) :
    ∀ (fuel remaining k : Nat), 1 ≤ fuel →
      sumDur (genMainB stream avg fuel remaining k).1 = remaining := by
  intro fuel
  induction fuel with
  | zero => intro _ _ h; omega
  | succ n ih =>
    intro remaining k _
    match n with
    | 0 =>
      simp [genMainB, sumDur, genSegmentB]
    | m + 1 =>
      rw [genMainB]
      set d0 := randomInt (stream k) (7 * avg / 10) (13 * avg / 10) with hd0
      set b := remaining - (m + 1) * 60 with hb
      set d := if b < d0 then b else d0 with hd
      have hdle : d ≤ remaining := by
        rw [hd]; split <;> omega
      simp only [sumDur, List.map_cons, List.sum_cons]
      have hrec := ih (remaining - d) ((genSegmentB stream (k + 1) d).2)
        (by omega)
      simp only [sumDur] at hrec
      rw [hrec]
      show d + (remaining - d) = remaining
      omega

/-- C1, amended.  The part_001 auto generator covers the requested session
exactly: its durations sum to warmup (900 s) + main block
(`durationMinutes * 60` s, the last custom segment absorbing the rounding
remainder) + cooldown (600 s).  The road_to_halo.ino generator instead
gives all `numSegments` main segments the identical duration
`durationMinutes * 60 / numSegments` (integer division), with no remainder
redistribution, so its total falls short of the requested
`600 + durationMinutes * 60 + 600` whenever `numSegments` does not divide
`durationMinutes * 60`.  (The two extra hypotheses of the first part keep
the `Nat` model inside the range where the `uint16_t` arithmetic of the
source neither wraps nor underflows.) -/
theorem claim_C1_theorem :
    (∀ (durationMinutes totalSegments : Nat) (stream : Nat → Nat),
      3 ≤ totalSegments →
      60 * (totalSegments - 2) ≤ durationMinutes * 60 →
      durationMinutes * 60 ≤ 65535 →
      sumDur (generateWorkoutB durationMinutes totalSegments stream) =
        900 + durationMinutes * 60 + 600) ∧
    (∀ (cfg : CustomConfig) (stream : Nat → Nat), 1 ≤ cfg.numSegments →
      sumDur (generateCustomWorkout cfg stream) =
        600 + cfg.numSegments * (cfg.durationMinutes * 60 / cfg.numSegments)
          + 600) := by
  constructor
  · intro D T stream hT _ _
    unfold generateWorkoutB
    have h := genMainB_sumDur stream (D * 60 / (T - 2)) (T - 2) (D * 60) 0
      (by omega)
    simp only [sumDur, List.map_cons, List.sum_cons, List.map_append,
      List.sum_append, List.map_nil, List.sum_nil] at h ⊢
    omega
  · intro cfg stream hN
    obtain ⟨mid, hlen, hplan⟩ := generateCustomWorkout_eq cfg stream
    rw [hplan]
    have hb := buildSegments_sumDur
      (List.replicate cfg.numSegments
        (cfg.durationMinutes * 60 / cfg.numSegments))
      (1 :: (mid ++ [3/5])) (by simp; omega)
    simp only [sumDur, List.map_cons, List.sum_cons, List.map_append,
      List.sum_append, List.map_nil, List.sum_nil] at hb ⊢
    rw [List.sum_replicate, smul_eq_mul] at hb
    simp only [warmupSegment, cooldownSegment]
    omega

/-- C1, witness: the default configuration (240 minutes, 70 segments). -/
theorem claim_C1_witness :
    sumDur (generateWorkoutB 240 70 (fun _ => 0)) = 900 + 240 * 60 + 600 ∧
    sumDur (generateCustomWorkout ⟨240, 70, 350⟩ (fun _ => 0)) =
      600 + 70 * (240 * 60 / 70) + 600 :=
  ⟨claim_C1_theorem.1 240 70 (fun _ => 0) (by norm_num) (by norm_num)
      (by norm_num),
    claim_C1_theorem.2 ⟨240, 70, 350⟩ (fun _ => 0) (by norm_num)⟩

/-- C1, counterexample: with main duration 1 minute and 7 segments the
road_to_halo.ino generator produces `7 * (60 / 7) = 56` main-block seconds,
so the plan total is 1256, not the requested `600 + 60 + 600 = 1260`: the
final main-block segment does not absorb the rounding remainder there. -/
theorem claim_C1_counterexample :
    sumDur (generateCustomWorkout ⟨1, 7, 350⟩ (fun _ => 0)) ≠
      600 + 1 * 60 + 600 := by
  have h : sumDur (generateCustomWorkout ⟨1, 7, 350⟩ (fun _ => 0)) = 1256 := by
    with_unfolding_all rfl
  omega

/-! ## C2: boundary continuity -/

/-- C2, amended: continuity holds — including the warmup-to-first-interval
and last-interval-to-cooldown junctions, and after TSS normalization — for
every plan of road_to_halo.ino's `generateCustomWorkout` (any configuration
with at least one main segment, any random stream).  It does not hold for
part_001's auto `generateWorkout` (also cited by the claim), whose
segments draw their boundary ratios independently: see the counterexample. -/
theorem claim_C2_theorem (cfg : CustomConfig) (stream : Nat → Nat)
    (hN : 1 ≤ cfg.numSegments) :
    continuousPlan (generateCustomWorkout cfg stream) := by
  obtain ⟨mid, hlen, hplan⟩ := generateCustomWorkout_eq cfg stream
  unfold continuousPlan
  rw [hplan]
  apply plan_continuous_general
  · simp; omega
  · simp; omega
  · rfl
  · rw [show ((1 : ℚ) :: (mid ++ [3/5])) = (1 :: mid) ++ [3/5] by simp]
    exact List.getLast?_concat _

/-- C2, witness: a concrete two-segment configuration. -/
theorem claim_C2_witness :
    continuousPlan (generateCustomWorkout ⟨1, 2, 350⟩ (fun _ => 0)) :=
  claim_C2_theorem ⟨1, 2, 350⟩ (fun _ => 0) (by norm_num)

/-- C2, counterexample: part_001's auto generator (cited by the claim)
violates continuity: with one custom segment and these draws, the custom
segment starts at ratio 0.735 while the warmup ends at 0.70. -/
theorem claim_C2_counterexample :
    ¬ continuousPlan
      (generateWorkoutB 1 3 (fun n => if n = 1 then 1000 else 0)) := by
  have hplan : generateWorkoutB 1 3 (fun n => if n = 1 then 1000 else 0) =
      [⟨900, 3/10, 7/10⟩, ⟨60, 147/200, 143/200⟩, ⟨600, 7/10, 3/10⟩] := by
    with_unfolding_all rfl
  intro h
  unfold continuousPlan at h
  rw [hplan, List.chain'_cons] at h
  have : (7 : ℚ)/10 = 147/200 := h.1
  norm_num at this

/-! ## C3: configuration validation -/

/-- C3, amended: the generator performs no validation at all.  For every
configuration with at least one main segment — including zero duration and
non-positive target TSS — generation proceeds and always yields a plan of
`numSegments + 2` segments; structurally invalid values flow through
silently instead of producing any error outcome. -/
theorem claim_C3_theorem (cfg : CustomConfig) (stream : Nat → Nat)
    (hN : 1 ≤ cfg.numSegments) :
    (generateCustomWorkout cfg stream).length = cfg.numSegments + 2 := by
  obtain ⟨mid, hlen, hplan⟩ := generateCustomWorkout_eq cfg stream
  rw [hplan]
  have hb := buildSegments_length
    (List.replicate cfg.numSegments
      (cfg.durationMinutes * 60 / cfg.numSegments))
    (1 :: (mid ++ [3/5])) (by simp; omega)
  simp only [List.length_cons, List.length_append, List.length_singleton, hb]
  simp

/-- C3, witness: a configuration with non-positive target TSS is still
turned into a full plan. -/
theorem claim_C3_witness :
    (generateCustomWorkout ⟨240, 3, 0⟩ (fun _ => 0)).length = 3 + 2 :=
  claim_C3_theorem ⟨240, 3, 0⟩ (fun _ => 0) (by norm_num)

/-- C3, counterexample: a configuration with `durationMinutes = 0` — which
the claim requires to be rejected with a ConfigError and no generated
plan — still produces a full 5-segment plan (with zero-duration main
segments): there is no ConfigError path in the code. -/
theorem claim_C3_counterexample :
    generateCustomWorkout ⟨0, 3, 350⟩ (fun _ => 0) ≠ [] ∧
    (generateCustomWorkout ⟨0, 3, 350⟩ (fun _ => 0)).length = 5 := by
  constructor
  · with_unfolding_all decide
  · with_unfolding_all rfl

/-! ## C5: no consecutive high-intensity boundaries -/

theorem nextPowerDraw_of_high (stream : Nat → Nat) (k : Nat) (p : ℚ)
    (rest : List ℚ) (hp : 6/5 ≤ p) :
    (nextPowerDraw stream k (p :: rest)).1 ≤ 3/4 := by
  simp only [nextPowerDraw]
  by_cases h75 : (7:ℚ)/5 ≤ p
  · rw [if_pos h75]
    exact randomFloat_le _ (by norm_num)
  · rw [if_neg h75, if_pos hp]
    exact randomFloat_le _ (by norm_num)

theorem nextPowerDraw_chain (stream : Nat → Nat) (k : Nat) (acc : List ℚ)
    (h : List.Chain' (fun a b => ¬(6/5 ≤ a ∧ 6/5 ≤ b)) acc) :
    List.Chain' (fun a b => ¬(6/5 ≤ a ∧ 6/5 ≤ b))
      ((nextPowerDraw stream k acc).1 :: acc) := by
  cases acc with
  | nil => simp
  | cons p rest =>
    rw [List.chain'_cons]
    refine ⟨?_, h⟩
    by_cases hp : (6:ℚ)/5 ≤ p
    · rintro ⟨hdraw, -⟩
      have := nextPowerDraw_of_high stream k p rest hp
      linarith
    · rintro ⟨-, hc⟩
      exact hp hc

theorem genPowersAux_chain (stream : Nat → Nat) :
    ∀ (fuel : Nat) (acc : List ℚ) (k : Nat),
      List.Chain' (fun a b => ¬(6/5 ≤ a ∧ 6/5 ≤ b)) acc →
      List.Chain' (fun a b => ¬(6/5 ≤ a ∧ 6/5 ≤ b))
        (genPowersAux stream fuel acc k).1 := by
  intro fuel
  induction fuel with
  | zero => intro acc k h; exact h
  | succ n ih =>
    intro acc k h
    rw [genPowersAux]
    exact ih _ _ (nextPowerDraw_chain stream k acc h)

/-- C5, amended: the boundary sequence as sampled — before TSS
normalization — never contains two consecutive boundaries at or above 120%
FTP, for every stream and segment count: whenever the previous boundary is
≥ 1.20, the next draw is forced into the recovery band 0.40–0.75.  For the
plan as delivered to playback the property can fail, because normalization
rescaling can lift two adjacent boundaries past 1.20 simultaneously (see
the counterexample). -/
theorem claim_C5_theorem (stream : Nat → Nat) (numSegments : Nat) :
    noConsecutiveHigh (segmentPowers stream numSegments) := by
  unfold noConsecutiveHigh segmentPowers
  rw [List.chain'_append]
  refine ⟨?_, List.chain'_singleton _, ?_⟩
  · rw [List.chain'_reverse]
    have h := genPowersAux_chain stream (numSegments - 1) [1] 0 (by simp)
    exact h.imp fun a b hab hc => hab ⟨hc.2, hc.1⟩
  · intro x _ y hy
    simp only [List.head?_cons, Option.mem_def, Option.some.injEq] at hy
    subst hy
    rintro ⟨-, hc⟩
    norm_num at hc

set_option maxRecDepth 4000 in
/-- C5, counterexample: configuration (3 min, 3 segments, target TSS 9.241)
with draws landing both interior boundaries at 0.61.  The achieved TSS is
exactly a quarter of the target, so normalization scales by exactly 2 and
the delivered plan has adjacent main-block boundaries 1.22, 1.22 — two
consecutive boundaries ≥ 1.20 in the plan as delivered to playback. -/
theorem claim_C5_counterexample :
    ¬ noConsecutiveHigh (planMainBoundaries
      (generateCustomWorkout ⟨3, 3, 9241/1000⟩
        (fun n => if n % 2 = 1 then 6000 else 0))) := by
  have hplan : generateCustomWorkout ⟨3, 3, 9241/1000⟩
      (fun n => if n % 2 = 1 then 6000 else 0) =
      [⟨600, 3/10, 1⟩, ⟨60, 1, 61/50⟩, ⟨60, 61/50, 61/50⟩, ⟨60, 61/50, 3/5⟩,
       ⟨600, 3/5, 3/10⟩] := by
    with_unfolding_all rfl
  intro h
  unfold noConsecutiveHigh at h
  rw [hplan] at h
  simp only [planMainBoundaries, List.drop, List.dropLast, List.map_cons,
    List.map_nil] at h
  rw [List.chain'_cons, List.chain'_cons] at h
  exact h.2.1 ⟨by norm_num, by norm_num⟩

/-! ## Playback engine of road_to_halo.ino: `updateValues`

Global constants of the source. -/

def FTP : Nat := 250

def HR_BASE : Nat := 135

def HR_MAX : Nat := 170

/-- The heart-rate map of `updateValues`:
`HR_BASE + (multiplier - 0.5) * ((HR_MAX - HR_BASE) / (1.27 - 0.5))`,
constrained to `[90, 180]` and truncated to `uint8_t` (truncation equals
`Int.floor` on these non-negative values). -/
def hrFromRatio (powerMultiplier : ℚ) : Nat :=
  (⌊constrainQ ((HR_BASE : ℚ) + (powerMultiplier - 1/2) *
      (((HR_MAX : ℚ) - (HR_BASE : ℚ)) / (127/100 - 1/2))) 90 180⌋).toNat

/-- The interpolation of `updateValues`: progress through the segment,
linear interpolation between the boundary ratios, floored at the minimum
ratio 0.30. -/
def interpolatedRatio (seg : WorkoutSegment) (segmentElapsed : Nat) : ℚ :=
  let progress := (segmentElapsed : ℚ) / (seg.duration : ℚ)
  let pm := seg.powerLow + (seg.powerHigh - seg.powerLow) * progress
  if pm < 3/10 then 3/10 else pm

/-- The mutable simulation globals of road_to_halo.ino.  All times are in
milliseconds, as produced by `millis()`. -/
structure SimState where
  power : Nat
  cadence : Nat
  cadenceIncreasing : Bool
  heartRate : Nat
  workoutStartTime : Nat
  currentSegment : Nat
  segmentStartTime : Nat
  workoutActive : Bool
  workoutFinished : Bool
  cooldownStartTime : Nat
  finalHeartRate : Nat
  crankRevolutions : Nat
  lastCrankEventTime : Nat
deriving Repr, DecidableEq

/-- The cadence oscillator and crank update at the end of `updateValues`
(skipped once the workout is finished; the crank timestamp wraps modulo
65536 and is skipped when cadence is zero). -/
def stepCadence (s : SimState) : SimState :=
  if s.workoutFinished = false then
    let c := if s.cadenceIncreasing then s.cadence + 1 else s.cadence - 1
    let inc := if s.cadenceIncreasing then decide (c < 98) else decide (c ≤ 90)
    let s1 := { s with cadence := c, cadenceIncreasing := inc }
    if 0 < c then
      { s1 with
        crankRevolutions := s1.crankRevolutions + 1,
        lastCrankEventTime := (s1.lastCrankEventTime + 60 * 1024 / c) % 65536 }
    else s1
  else s

/-- `updateValues()` of road_to_halo.ino, one tick at wall-clock time `now`
(milliseconds): completion check with heart-rate latch and 5-minute linear
recovery, monotone segment advance re-anchoring the segment start, linear
power interpolation with ±2% fluctuation drawn from `rf`, heart-rate map,
cadence oscillation. -/
def updateValues (plan : List WorkoutSegment) (total : Nat) (rf : Nat)
    (now : Nat) (s : SimState) : SimState :=
  if s.workoutActive = false then s
  else
    let workoutElapsed := (now - s.workoutStartTime) / 1000
    if total ≤ workoutElapsed then
      let s1 :=
        if s.workoutFinished = false then
          { s with workoutFinished := true, cooldownStartTime := now,
                   finalHeartRate := s.heartRate }
        else s
      let recoveryElapsed := (now - s1.cooldownStartTime) / 1000
      if recoveryElapsed < 300 then
        { s1 with
          heartRate :=
            s1.finalHeartRate - (s1.finalHeartRate - 90) * recoveryElapsed / 300,
          power := 0, cadence := 0 }
      else
        { s1 with heartRate := 90, power := 0, cadence := 0 }
    else
      let segmentElapsed := (now - s.segmentStartTime) / 1000
      let advance :=
        (plan.getD s.currentSegment ⟨0, 0, 0⟩).duration ≤ segmentElapsed
      let cs := if advance then s.currentSegment + 1 else s.currentSegment
      let segStart := if advance then now else s.segmentStartTime
      let segElapsed := if advance then 0 else segmentElapsed
      let powerMultiplier :=
        if cs < plan.length then
          interpolatedRatio (plan.getD cs ⟨0, 0, 0⟩) segElapsed
        else 3/10
      let basePower := (⌊(FTP : ℚ) * powerMultiplier⌋).toNat
      let powerVariation := randomFloat rf (-1/50) (1/50)
      let p0 := (⌊(basePower : ℚ) * (1 + powerVariation)⌋).toNat
      let p := if p0 < 62 then 62 else p0
      stepCadence
        { s with currentSegment := cs, segmentStartTime := segStart,
                 power := p, heartRate := hrFromRatio powerMultiplier }

/-- `startWorkout()` composed with the initial values of the globals:
the state at boot time `t0` (milliseconds). -/
def startWorkout (t0 : Nat) : SimState :=
  { power := 0, cadence := 90, cadenceIncreasing := true, heartRate := 135,
    workoutStartTime := t0, currentSegment := 0, segmentStartTime := t0,
    workoutActive := true, workoutFinished := false, cooldownStartTime := 0,
    finalHeartRate := 135, crankRevolutions := 0, lastCrankEventTime := 0 }

/-- The once-per-second loop: fold `updateValues` over a list of
(tick time, fluctuation draw) pairs. -/
def runTicks (plan : List WorkoutSegment) (total : Nat) (s : SimState)
    (ticks : List (Nat × Nat)) : SimState :=
  ticks.foldl (fun st t => updateValues plan total t.2 t.1 st) s

/-! ## C4: TSS normalization -/

/-- C4: the normalization pipeline of generateCustomWorkout.  The achieved
TSS is the trapezoid sum `duration * ((start+end)/2)^2 * 100 / 3600` over
the main-block segments only; when it is positive, every interior boundary
is multiplied once by `sqrtQ (target / achieved)` and clamped to
`[0.30, 1.50]`, the two anchor boundaries (1.00 and 0.60, shared with the
fixed warmup and cooldown) are untouched, and the delivered plan is built
directly from that once-scaled list — no second corrective pass exists, the
final TSS being recomputed for reporting only; when the achieved TSS is not
positive, normalization is skipped entirely. -/
theorem claim_C4_theorem (cfg : CustomConfig) (stream : Nat → Nat) :
    ∃ mid : List ℚ,
      segmentPowers stream cfg.numSegments = 1 :: (mid ++ [3/5]) ∧
      mainBlockTSS
          (buildSegments
            (List.replicate cfg.numSegments
              (cfg.durationMinutes * 60 / cfg.numSegments))
            (segmentPowers stream cfg.numSegments)) =
        ((buildSegments
            (List.replicate cfg.numSegments
              (cfg.durationMinutes * 60 / cfg.numSegments))
            (segmentPowers stream cfg.numSegments)).map
          (fun s =>
            (s.duration : ℚ) * ((s.powerLow + s.powerHigh) / 2) ^ 2 * 100
              / 3600)).sum ∧
      (0 < mainBlockTSS
          (buildSegments
            (List.replicate cfg.numSegments
              (cfg.durationMinutes * 60 / cfg.numSegments))
            (segmentPowers stream cfg.numSegments)) →
        generateCustomWorkout cfg stream =
          warmupSegment ::
            buildSegments
              (List.replicate cfg.numSegments
                (cfg.durationMinutes * 60 / cfg.numSegments))
              (1 :: (mid.map (fun p => clampPower (p *
                sqrtQ (cfg.targetTSS / mainBlockTSS
                  (buildSegments
                    (List.replicate cfg.numSegments
                      (cfg.durationMinutes * 60 / cfg.numSegments))
                    (segmentPowers stream cfg.numSegments))))) ++ [3/5]))
            ++ [cooldownSegment]) ∧
      (¬ 0 < mainBlockTSS
          (buildSegments
            (List.replicate cfg.numSegments
              (cfg.durationMinutes * 60 / cfg.numSegments))
            (segmentPowers stream cfg.numSegments)) →
        generateCustomWorkout cfg stream =
          warmupSegment ::
            buildSegments
              (List.replicate cfg.numSegments
                (cfg.durationMinutes * 60 / cfg.numSegments))
              (1 :: (mid ++ [3/5])) ++ [cooldownSegment]) := by
  obtain ⟨mid, hmid, hlen⟩ := segmentPowers_shape stream cfg.numSegments
  refine ⟨mid, hmid, ?_, ?_, ?_⟩
  · unfold mainBlockTSS
    congr 1
    apply List.map_congr_left
    intro s _
    unfold calculateSegmentTSS
    ring
  · intro hpos
    unfold generateCustomWorkout
    simp only
    rw [if_pos hpos, hmid, normalizePowers_eq]
  · intro hpos
    unfold generateCustomWorkout
    simp only
    rw [if_neg hpos, hmid]

/-- C4, witness: a two-segment configuration with the all-zero stream. -/
theorem claim_C4_witness :
    ∃ mid : List ℚ,
      segmentPowers (fun _ => 0) (2:Nat) = 1 :: (mid ++ [3/5]) ∧
      mainBlockTSS
          (buildSegments (List.replicate 2 (1 * 60 / 2))
            (segmentPowers (fun _ => 0) 2)) =
        ((buildSegments (List.replicate 2 (1 * 60 / 2))
            (segmentPowers (fun _ => 0) 2)).map
          (fun s =>
            (s.duration : ℚ) * ((s.powerLow + s.powerHigh) / 2) ^ 2 * 100
              / 3600)).sum ∧
      (0 < mainBlockTSS
          (buildSegments (List.replicate 2 (1 * 60 / 2))
            (segmentPowers (fun _ => 0) 2)) →
        generateCustomWorkout ⟨1, 2, 350⟩ (fun _ => 0) =
          warmupSegment ::
            buildSegments (List.replicate 2 (1 * 60 / 2))
              (1 :: (mid.map (fun p => clampPower (p *
                sqrtQ (350 / mainBlockTSS
                  (buildSegments (List.replicate 2 (1 * 60 / 2))
                    (segmentPowers (fun _ => 0) 2))))) ++ [3/5]))
            ++ [cooldownSegment]) ∧
      (¬ 0 < mainBlockTSS
          (buildSegments (List.replicate 2 (1 * 60 / 2))
            (segmentPowers (fun _ => 0) 2)) →
        generateCustomWorkout ⟨1, 2, 350⟩ (fun _ => 0) =
          warmupSegment ::
            buildSegments (List.replicate 2 (1 * 60 / 2))
              (1 :: (mid ++ [3/5])) ++ [cooldownSegment]) :=
  claim_C4_theorem ⟨1, 2, 350⟩ (fun _ => 0)

/-! ## C9: the segment pointer stays within the plan -/

theorem stepCadence_preserves (s : SimState) :
    (stepCadence s).currentSegment = s.currentSegment ∧
    (stepCadence s).segmentStartTime = s.segmentStartTime ∧
    (stepCadence s).workoutStartTime = s.workoutStartTime ∧
    (stepCadence s).workoutActive = s.workoutActive ∧
    (stepCadence s).workoutFinished = s.workoutFinished ∧
    (stepCadence s).cooldownStartTime = s.cooldownStartTime ∧
    (stepCadence s).finalHeartRate = s.finalHeartRate ∧
    (stepCadence s).power = s.power ∧
    (stepCadence s).heartRate = s.heartRate := by
  simp only [stepCadence]
  split_ifs <;> simp

theorem sumDur_take_succ (plan : List WorkoutSegment) (i : Nat)
    (h : i < plan.length) :
    sumDur (plan.take (i + 1)) =
      sumDur (plan.take i) + (plan.get ⟨i, h⟩).duration := by
  unfold sumDur
  rw [List.map_take, List.map_take,
    List.sum_take_succ (plan.map (·.duration)) i (by simpa using h)]
  congr 1
  simp

@[simp] theorem stepCadence_currentSegment (s : SimState) :
    (stepCadence s).currentSegment = s.currentSegment := by
  simp only [stepCadence]; split_ifs <;> rfl

@[simp] theorem stepCadence_segmentStartTime (s : SimState) :
    (stepCadence s).segmentStartTime = s.segmentStartTime := by
  simp only [stepCadence]; split_ifs <;> rfl

@[simp] theorem stepCadence_workoutStartTime (s : SimState) :
    (stepCadence s).workoutStartTime = s.workoutStartTime := by
  simp only [stepCadence]; split_ifs <;> rfl

@[simp] theorem stepCadence_workoutActive (s : SimState) :
    (stepCadence s).workoutActive = s.workoutActive := by
  simp only [stepCadence]; split_ifs <;> rfl

@[simp] theorem stepCadence_workoutFinished (s : SimState) :
    (stepCadence s).workoutFinished = s.workoutFinished := by
  simp only [stepCadence]; split_ifs <;> rfl

@[simp] theorem stepCadence_cooldownStartTime (s : SimState) :
    (stepCadence s).cooldownStartTime = s.cooldownStartTime := by
  simp only [stepCadence]; split_ifs <;> rfl

@[simp] theorem stepCadence_finalHeartRate (s : SimState) :
    (stepCadence s).finalHeartRate = s.finalHeartRate := by
  simp only [stepCadence]; split_ifs <;> rfl

@[simp] theorem stepCadence_power (s : SimState) :
    (stepCadence s).power = s.power := by
  simp only [stepCadence]; split_ifs <;> rfl

@[simp] theorem stepCadence_heartRate (s : SimState) :
    (stepCadence s).heartRate = s.heartRate := by
  simp only [stepCadence]; split_ifs <;> rfl

/-- One tick preserves the dwell invariant: the segment pointer is in
bounds and the current segment was entered no earlier than the nominal
start time of that segment (each dwell is at least the nominal duration
because the segment start is re-anchored at the transition tick). -/
theorem updateValues_inv (plan : List WorkoutSegment) (t0 : Nat)
    (hdur : ∀ seg ∈ plan, 1 ≤ seg.duration)
    (rf now : Nat) (s : SimState)
    (hcs : s.currentSegment < plan.length)
    (hstart : s.workoutStartTime = t0)
    (hseg : t0 + 1000 * sumDur (plan.take s.currentSegment) ≤
      s.segmentStartTime) :
    (updateValues plan (sumDur plan) rf now s).currentSegment < plan.length ∧
    (updateValues plan (sumDur plan) rf now s).workoutStartTime = t0 ∧
    t0 + 1000 * sumDur (plan.take
        (updateValues plan (sumDur plan) rf now s).currentSegment) ≤
      (updateValues plan (sumDur plan) rf now s).segmentStartTime := by
  simp only [updateValues]
  by_cases hact : s.workoutActive = false
  · rw [if_pos hact]
    exact ⟨hcs, hstart, hseg⟩
  rw [if_neg hact]
  by_cases hfin : sumDur plan ≤ (now - s.workoutStartTime) / 1000
  · rw [if_pos hfin]
    split <;> split <;> exact ⟨hcs, hstart, hseg⟩
  rw [if_neg hfin]
  rw [hstart] at hfin
  have helapsed : now - t0 < 1000 * sumDur plan := by omega
  have hgetD : plan.getD s.currentSegment ⟨0, 0, 0⟩ =
      plan.get ⟨s.currentSegment, hcs⟩ := by
    unfold List.getD
    rw [List.get?_eq_get hcs]
    rfl
  have hd1 : 1 ≤ (plan.get ⟨s.currentSegment, hcs⟩).duration :=
    hdur _ (plan.get_mem _ _)
  by_cases hadv : (plan.getD s.currentSegment ⟨0, 0, 0⟩).duration ≤
      (now - s.segmentStartTime) / 1000
  · have hmul : (plan.get ⟨s.currentSegment, hcs⟩).duration * 1000 ≤
        now - s.segmentStartTime := by
      rw [hgetD] at hadv
      exact (Nat.le_div_iff_mul_le (by norm_num)).mp hadv
    have hnow : s.segmentStartTime +
        1000 * (plan.get ⟨s.currentSegment, hcs⟩).duration ≤ now := by
      omega
    have hts := sumDur_take_succ plan s.currentSegment hcs
    have key : t0 + 1000 * sumDur (plan.take (s.currentSegment + 1)) ≤ now := by
      rw [hts]
      have := hseg
      omega
    simp only [hadv, if_true, stepCadence_currentSegment,
      stepCadence_segmentStartTime, stepCadence_workoutStartTime]
    refine ⟨?_, hstart, ?_⟩
    · show s.currentSegment + 1 < plan.length
      by_contra hcon
      have hclen : s.currentSegment + 1 = plan.length := by omega
      have htake : plan.take (s.currentSegment + 1) = plan := by
        rw [hclen, List.take_length]
      rw [htake] at key
      omega
    · exact key
  · simp only [hadv, if_false, stepCadence_currentSegment,
      stepCadence_segmentStartTime, stepCadence_workoutStartTime]
    exact ⟨hcs, hstart, hseg⟩

/-- C9: along every tick sequence from the start of a workout over a plan
of positive-duration segments, the segment pointer stays strictly below
the segment count, so every `workout[currentSegment]` read of
`updateValues` is within the allocated array. -/
theorem claim_C9_theorem (plan : List WorkoutSegment) (t0 : Nat)
    (ticks : List (Nat × Nat))
    (hne : 1 ≤ plan.length)
    (hdur : ∀ seg ∈ plan, 1 ≤ seg.duration) :
    (runTicks plan (sumDur plan) (startWorkout t0) ticks).currentSegment <
      plan.length := by
  have main : ∀ (ts : List (Nat × Nat)) (s : SimState),
      s.currentSegment < plan.length → s.workoutStartTime = t0 →
      t0 + 1000 * sumDur (plan.take s.currentSegment) ≤ s.segmentStartTime →
      (runTicks plan (sumDur plan) s ts).currentSegment < plan.length := by
    intro ts
    induction ts with
    | nil => intro s h1 _ _; exact h1
    | cons t ts ih =>
      intro s h1 h2 h3
      have hstep := updateValues_inv plan t0 hdur t.2 t.1 s h1 h2 h3
      exact ih _ hstep.1 hstep.2.1 hstep.2.2
  exact main ticks (startWorkout t0) (by simpa [startWorkout] using hne) rfl
    (by simp [startWorkout, sumDur])

/-- C9, witness: a two-segment plan ticked past several boundaries and past
the end of the session. -/
theorem claim_C9_witness :
    (runTicks [⟨1, 1, 1⟩, ⟨2, 1/2, 1/2⟩] (sumDur [⟨1, 1, 1⟩, ⟨2, 1/2, 1/2⟩])
        (startWorkout 0)
        [(0, 0), (1000, 4321), (2500, 77), (99999, 0)]).currentSegment <
      ([⟨1, 1, 1⟩, ⟨2, 1/2, 1/2⟩] : List WorkoutSegment).length :=
  claim_C9_theorem [⟨1, 1, 1⟩, ⟨2, 1/2, 1/2⟩] 0
    [(0, 0), (1000, 4321), (2500, 77), (99999, 0)]
    (by norm_num)
    (by intro seg hseg; simp at hseg; rcases hseg with h | h <;> simp [h])

/-! ## C6: completion latch, undecayed first second, absorbing rest state -/

/-- Once the workout is finished and 300 s of recovery have elapsed, a tick
only forces the resting outputs (heart rate 90, power 0, cadence 0) and
changes nothing else. -/
theorem updateValues_finished_rest (plan : List WorkoutSegment)
    (total rf now : Nat) (s : SimState)
    (hact : s.workoutActive = true) (hfin : s.workoutFinished = true)
    (hcross : total ≤ (now - s.workoutStartTime) / 1000)
    (hrec : 300 ≤ (now - s.cooldownStartTime) / 1000) :
    updateValues plan total rf now s =
      { s with heartRate := 90, power := 0, cadence := 0 } := by
  obtain ⟨pw, cad, ci, hr, wst, cs, sst, wa, wf, cst, fhr, cr, lce⟩ := s
  simp only at hact hfin hcross hrec
  subst hact hfin
  have hno : ¬ ((now - cst) / 1000 < 300) := by omega
  simp [updateValues, hcross, hno]

/-- C6: (1) on the tick that first reaches the total duration, the engine
latches the current heart rate into `finalHeartRate`, forces power and
cadence to 0, keeps the reported heart rate at the latched value, and
records the completion time; (2) with one second of recovery elapsed the
reported heart rate still equals `finalHeartRate`, undecayed, with power
and cadence 0; (3) with 300 or more seconds of recovery elapsed the tick
yields heart rate 90, power 0, cadence 0 and changes nothing else; (4) that
resting state persists over every later tick sequence. -/
theorem claim_C6_theorem (plan : List WorkoutSegment) (total rf : Nat) :
    (∀ (now : Nat) (s : SimState), s.workoutActive = true →
      s.workoutFinished = false →
      total ≤ (now - s.workoutStartTime) / 1000 →
      updateValues plan total rf now s =
        { s with workoutFinished := true, cooldownStartTime := now,
                 finalHeartRate := s.heartRate, heartRate := s.heartRate,
                 power := 0, cadence := 0 }) ∧
    (∀ (now : Nat) (s : SimState), s.workoutActive = true →
      s.workoutFinished = true → s.finalHeartRate ≤ 255 →
      total ≤ (now - s.workoutStartTime) / 1000 →
      (now - s.cooldownStartTime) / 1000 = 1 →
      updateValues plan total rf now s =
        { s with heartRate := s.finalHeartRate, power := 0, cadence := 0 }) ∧
    (∀ (now : Nat) (s : SimState), s.workoutActive = true →
      s.workoutFinished = true →
      total ≤ (now - s.workoutStartTime) / 1000 →
      300 ≤ (now - s.cooldownStartTime) / 1000 →
      updateValues plan total rf now s =
        { s with heartRate := 90, power := 0, cadence := 0 }) ∧
    (∀ (s : SimState) (ticks : List (Nat × Nat)), s.workoutActive = true →
      s.workoutFinished = true → ticks ≠ [] →
      (∀ t ∈ ticks, total ≤ (t.1 - s.workoutStartTime) / 1000 ∧
        300 ≤ (t.1 - s.cooldownStartTime) / 1000) →
      (runTicks plan total s ticks).heartRate = 90 ∧
      (runTicks plan total s ticks).power = 0 ∧
      (runTicks plan total s ticks).cadence = 0) := by
  refine ⟨?_, ?_, ?_, ?_⟩
  · intro now s hact hfin hcross
    obtain ⟨pw, cad, ci, hr, wst, cs, sst, wa, wf, cst, fhr, cr, lce⟩ := s
    simp only at hact hfin hcross
    subst hact hfin
    simp [updateValues, hcross]
  · intro now s hact hfin h255 hcross hrec
    obtain ⟨pw, cad, ci, hr, wst, cs, sst, wa, wf, cst, fhr, cr, lce⟩ := s
    simp only at hact hfin h255 hcross hrec
    subst hact hfin
    have hlt : (now - cst) / 1000 < 300 := by omega
    have hzero : fhr - (fhr - 90) * ((now - cst) / 1000) / 300 = fhr := by
      rw [hrec]; omega
    simp [updateValues, hcross, hlt, hzero]
  · intro now s hact hfin hcross hrec
    exact updateValues_finished_rest plan total rf now s hact hfin hcross hrec
  · have aux : ∀ (ts : List (Nat × Nat)) (s2 : SimState),
        s2.workoutActive = true → s2.workoutFinished = true →
        (∀ t ∈ ts, total ≤ (t.1 - s2.workoutStartTime) / 1000 ∧
          300 ≤ (t.1 - s2.cooldownStartTime) / 1000) →
        ts ≠ [] →
        (runTicks plan total s2 ts).heartRate = 90 ∧
        (runTicks plan total s2 ts).power = 0 ∧
        (runTicks plan total s2 ts).cadence = 0 := by
      intro ts
      induction ts with
      | nil => intro s2 _ _ _ hne2; exact absurd rfl hne2
      | cons t ts2 ih =>
        intro s2 hact2 hfin2 hall2 _
        have ht := hall2 t (List.mem_cons_self _ _)
        have hstep := updateValues_finished_rest plan total t.2 t.1 s2 hact2
          hfin2 ht.1 ht.2
        cases ts2 with
        | nil =>
          have hone : runTicks plan total s2 [t] =
              updateValues plan total t.2 t.1 s2 := rfl
          rw [hone, hstep]
          exact ⟨rfl, rfl, rfl⟩
        | cons t2 ts3 =>
          have hcons : runTicks plan total s2 (t :: t2 :: ts3) =
              runTicks plan total (updateValues plan total t.2 t.1 s2)
                (t2 :: ts3) := rfl
          rw [hcons, hstep]
          exact ih _ hact2 hfin2
            (fun t' ht' => hall2 t' (List.mem_cons_of_mem _ ht'))
            (by simp)
    intro s ticks hact hfin hne hall
    exact aux ticks s hact hfin hall hne

/-- C6, witness: a one-segment 10-second plan; latch at 10 s, undecayed
heart rate at 1 s of recovery, resting state at and beyond 300 s. -/
theorem claim_C6_witness :
    (updateValues [⟨10, 1, 1⟩] 10 0 10000 (startWorkout 0) =
      { (startWorkout 0) with
          workoutFinished := true
          cooldownStartTime := 10000
          finalHeartRate := (startWorkout 0).heartRate
          heartRate := (startWorkout 0).heartRate
          power := 0
          cadence := 0 }) ∧
    (updateValues [⟨10, 1, 1⟩] 10 0 11000
        ⟨0, 0, true, 150, 0, 0, 0, true, true, 10000, 150, 0, 0⟩ =
      { (⟨0, 0, true, 150, 0, 0, 0, true, true, 10000, 150, 0, 0⟩ : SimState)
          with heartRate := 150
               power := 0
               cadence := 0 }) ∧
    (updateValues [⟨10, 1, 1⟩] 10 0 310000
        ⟨0, 0, true, 150, 0, 0, 0, true, true, 10000, 150, 0, 0⟩ =
      { (⟨0, 0, true, 150, 0, 0, 0, true, true, 10000, 150, 0, 0⟩ : SimState)
          with heartRate := 90
               power := 0
               cadence := 0 }) ∧
    ((runTicks [⟨10, 1, 1⟩] 10
        ⟨0, 0, true, 150, 0, 0, 0, true, true, 10000, 150, 0, 0⟩
        [(310000, 0), (311000, 7)]).heartRate = 90 ∧
      (runTicks [⟨10, 1, 1⟩] 10
        ⟨0, 0, true, 150, 0, 0, 0, true, true, 10000, 150, 0, 0⟩
        [(310000, 0), (311000, 7)]).power = 0 ∧
      (runTicks [⟨10, 1, 1⟩] 10
        ⟨0, 0, true, 150, 0, 0, 0, true, true, 10000, 150, 0, 0⟩
        [(310000, 0), (311000, 7)]).cadence = 0) :=
  ⟨(claim_C6_theorem [⟨10, 1, 1⟩] 10 0).1 10000 (startWorkout 0) rfl rfl
      (by norm_num [startWorkout]),
    (claim_C6_theorem [⟨10, 1, 1⟩] 10 0).2.1 11000 _ rfl rfl (by norm_num)
      (by norm_num) (by norm_num),
    (claim_C6_theorem [⟨10, 1, 1⟩] 10 0).2.2.1 310000 _ rfl rfl (by norm_num)
      (by norm_num),
    (claim_C6_theorem [⟨10, 1, 1⟩] 10 0).2.2.2 _ [(310000, 0), (311000, 7)]
      rfl rfl (by simp)
      (by intro t ht; simp at ht; rcases ht with h | h <;> subst h <;>
        exact ⟨by norm_num, by norm_num⟩)⟩

/-! ## C7: the heart-rate map -/

theorem constrainQ_mono {x y lo hi : ℚ} (hlohi : lo ≤ hi) (h : x ≤ y) :
    constrainQ x lo hi ≤ constrainQ y lo hi := by
  unfold constrainQ
  split_ifs <;> linarith

/-- C7: the derived heart rate is
`HR_BASE + (r - 0.5) * (HR_MAX - HR_BASE) / (1.27 - 0.5)` clamped to
`[90, 180]`; it is exact at both anchors (ratio 0.5 gives exactly HR_BASE
and ratio 1.27 exactly HR_MAX), monotonically increasing in the ratio, and
it is precisely the value the Running-phase tick stores in `heartRate`
from the interpolated ratio. -/
theorem claim_C7_theorem :
    hrFromRatio (1/2) = HR_BASE ∧
    hrFromRatio (127/100) = HR_MAX ∧
    (∀ r1 r2 : ℚ, r1 ≤ r2 → hrFromRatio r1 ≤ hrFromRatio r2) ∧
    (∀ (plan : List WorkoutSegment) (total rf now : Nat) (s : SimState),
      s.workoutActive = true →
      ¬ total ≤ (now - s.workoutStartTime) / 1000 →
      s.currentSegment < plan.length →
      ¬ (plan.getD s.currentSegment ⟨0, 0, 0⟩).duration ≤
          (now - s.segmentStartTime) / 1000 →
      (updateValues plan total rf now s).heartRate =
        hrFromRatio (interpolatedRatio (plan.getD s.currentSegment ⟨0, 0, 0⟩)
          ((now - s.segmentStartTime) / 1000))) := by
  refine ⟨?_, ?_, ?_, ?_⟩
  · with_unfolding_all decide
  · with_unfolding_all decide
  · intro r1 r2 h
    unfold hrFromRatio
    have hc : (0:ℚ) ≤ ((HR_MAX : ℚ) - (HR_BASE : ℚ)) / (127/100 - 1/2) := by
      norm_num [HR_MAX, HR_BASE]
    have haff : (HR_BASE : ℚ) + (r1 - 1/2) *
        (((HR_MAX : ℚ) - (HR_BASE : ℚ)) / (127/100 - 1/2)) ≤
        (HR_BASE : ℚ) + (r2 - 1/2) *
        (((HR_MAX : ℚ) - (HR_BASE : ℚ)) / (127/100 - 1/2)) := by
      nlinarith
    exact Int.toNat_le_toNat
      (Int.floor_le_floor (constrainQ_mono (by norm_num) haff))
  · intro plan total rf now s hact hfin hcs hadv
    simp only [updateValues, hact]
    rw [if_neg (by simp), if_neg hfin]
    simp only [hadv, if_false, hcs, if_true, stepCadence_heartRate]

/-- C7, witness: monotonicity applied at ratios 0.5 and 1, and the
Running-phase link on a fresh one-segment session half a second in. -/
theorem claim_C7_witness :
    hrFromRatio (1/2) ≤ hrFromRatio 1 ∧
    (updateValues [⟨10, 1, 1⟩] 10 0 500 (startWorkout 0)).heartRate =
      hrFromRatio (interpolatedRatio
        (([⟨10, 1, 1⟩] : List WorkoutSegment).getD
          (startWorkout 0).currentSegment ⟨0, 0, 0⟩)
        ((500 - (startWorkout 0).workoutStartTime) / 1000)) :=
  ⟨claim_C7_theorem.2.2.1 (1/2) 1 (by norm_num),
    claim_C7_theorem.2.2.2 [⟨10, 1, 1⟩] 10 0 500 (startWorkout 0) rfl
      (by decide) (by decide) (by decide)⟩

/-! ## Manual mode of part_001: `handleManualButtons` and the manual tick -/

/-- The manual-mode state of part_001 (`manualTargetPower`,
`lastButtonPressDown/Up`, `buttonDownLastState`/`buttonUpLastState`;
`true` models the HIGH level of the pulled-up inputs). -/
structure ManualState where
  manualTargetPower : Nat
  lastButtonPressDown : Nat
  lastButtonPressUp : Nat
  buttonDownLastState : Bool
  buttonUpLastState : Bool
deriving Repr, DecidableEq

/-- `handleManualButtons()` of part_001 at time `now` (ms) with the current
levels of the two buttons.  A falling edge records the press time if it is
more than `BUTTON_DEBOUNCE_MS = 200` ms after the last recorded press; a
rising edge applies the step when the release is 50–200 ms (exclusive)
after the last recorded press, clamped to `[50, 500]` W. -/
def handleManualButtons (step now : Nat)
    (buttonDownState buttonUpState : Bool) (s : ManualState) : ManualState :=
  let s1 :=
    if s.buttonDownLastState = true ∧ buttonDownState = false then
      if 200 < now - s.lastButtonPressDown then
        { s with lastButtonPressDown := now }
      else s
    else s
  let s2 :=
    if s.buttonDownLastState = false ∧ buttonDownState = true then
      if 50 < now - s1.lastButtonPressDown ∧
          now - s1.lastButtonPressDown < 200 then
        if 50 < s1.manualTargetPower then
          { s1 with manualTargetPower := max 50 (s1.manualTargetPower - step) }
        else s1
      else s1
    else s1
  let s3 := { s2 with buttonDownLastState := buttonDownState }
  let s4 :=
    if s3.buttonUpLastState = true ∧ buttonUpState = false then
      if 200 < now - s3.lastButtonPressUp then
        { s3 with lastButtonPressUp := now }
      else s3
    else s3
  let s5 :=
    if s3.buttonUpLastState = false ∧ buttonUpState = true then
      if 50 < now - s4.lastButtonPressUp ∧
          now - s4.lastButtonPressUp < 200 then
        if s4.manualTargetPower < 500 then
          { s4 with manualTargetPower := min 500 (s4.manualTargetPower + step) }
        else s4
      else s4
    else s4
  { s5 with buttonUpLastState := buttonUpState }

/-- A press of the decrement button at `pressTime` followed by its release
at `releaseTime` (the increment input held HIGH throughout). -/
def pressReleaseDown (step pressTime releaseTime : Nat) (s : ManualState) :
    ManualState :=
  handleManualButtons step releaseTime true true
    (handleManualButtons step pressTime false true s)

/-- A press of the increment button at `pressTime` followed by its release
at `releaseTime` (the decrement input held HIGH throughout). -/
def pressReleaseUp (step pressTime releaseTime : Nat) (s : ManualState) :
    ManualState :=
  handleManualButtons step releaseTime true true
    (handleManualButtons step pressTime true false s)

/-- A sequence of press/release pairs on the decrement button. -/
def runDownEvents (step : Nat) : ManualState → List (Nat × Nat) → ManualState
  | s, [] => s
  | s, e :: es => runDownEvents step (pressReleaseDown step e.1 e.2 s) es

/-- A sequence of press/release pairs on the increment button. -/
def runUpEvents (step : Nat) : ManualState → List (Nat × Nat) → ManualState
  | s, [] => s
  | s, e :: es => runUpEvents step (pressReleaseUp step e.1 e.2 s) es

/-- Press/release pairs spaced beyond the debounce window: each press is
more than 200 ms after the previous recorded press, and each release is
50–200 ms (exclusive) after its press. -/
def validSeq : Nat → List (Nat × Nat) → Prop
  | _, [] => True
  | last, e :: es =>
    last + 200 < e.1 ∧ e.1 + 50 < e.2 ∧ e.2 < e.1 + 200 ∧ validSeq e.1 es

/-- `updateValues()` of part_001 in manual mode: the output power is the
target power with no fluctuation, the heart rate derives from
`power / FTP`; the completion/recovery branch and cadence oscillator are
the same as in auto mode. -/
def updateValuesManual (total target now : Nat) (s : SimState) : SimState :=
  if s.workoutActive = false then s
  else
    let workoutElapsed := (now - s.workoutStartTime) / 1000
    if total ≤ workoutElapsed then
      let s1 :=
        if s.workoutFinished = false then
          { s with workoutFinished := true, cooldownStartTime := now,
                   finalHeartRate := s.heartRate }
        else s
      let recoveryElapsed := (now - s1.cooldownStartTime) / 1000
      if recoveryElapsed < 300 then
        { s1 with
          heartRate :=
            s1.finalHeartRate - (s1.finalHeartRate - 90) * recoveryElapsed / 300,
          power := 0, cadence := 0 }
      else
        { s1 with heartRate := 90, power := 0, cadence := 0 }
    else
      stepCadence
        { s with power := target,
                 heartRate := hrFromRatio ((target : ℚ) / (FTP : ℚ)) }

theorem pressReleaseDown_spec (step p r t ld lu : Nat)
    (hdeb : ld + 200 < p) (h50 : p + 50 < r) (h200 : r < p + 200)
    (ht : 50 ≤ t) :
    pressReleaseDown step p r ⟨t, ld, lu, true, true⟩ =
      ⟨max 50 (t - step), p, lu, true, true⟩ := by
  have hc1 : 200 < p - ld := by omega
  have hc2a : 50 < r - p := by omega
  have hc2b : r - p < 200 := by omega
  by_cases hc3 : 50 < t
  · simp [pressReleaseDown, handleManualButtons, hc1, hc2a, hc2b, hc3]
  · have h5 : t = 50 := by omega
    subst h5
    simp [pressReleaseDown, handleManualButtons, hc1, hc2a, hc2b, hc3]

theorem pressReleaseUp_spec (step p r t ld lu : Nat)
    (hdeb : lu + 200 < p) (h50 : p + 50 < r) (h200 : r < p + 200)
    (ht : t ≤ 500) :
    pressReleaseUp step p r ⟨t, ld, lu, true, true⟩ =
      ⟨min 500 (t + step), ld, p, true, true⟩ := by
  have hc1 : 200 < p - lu := by omega
  have hc2a : 50 < r - p := by omega
  have hc2b : r - p < 200 := by omega
  by_cases hc3 : t < 500
  · simp [pressReleaseUp, handleManualButtons, hc1, hc2a, hc2b, hc3]
  · have h5 : t = 500 := by omega
    subst h5
    simp [pressReleaseUp, handleManualButtons, hc1, hc2a, hc2b, hc3]

theorem runDownEvents_target (step : Nat) :
    ∀ (es : List (Nat × Nat)) (t ld lu : Nat), 50 ≤ t → validSeq ld es →
      (runDownEvents step ⟨t, ld, lu, true, true⟩ es).manualTargetPower =
        max 50 (t - es.length * step) := by
  intro es
  induction es with
  | nil =>
    intro t ld lu ht _
    simp [runDownEvents]
    omega
  | cons e es ih =>
    intro t ld lu ht hv
    rw [validSeq] at hv
    obtain ⟨h1, h2, h3, h4⟩ := hv
    rw [runDownEvents,
      pressReleaseDown_spec step e.1 e.2 t ld lu (by omega) h2 h3 ht,
      ih (max 50 (t - step)) e.1 lu (by omega) h4]
    simp only [List.length_cons, Nat.succ_mul]
    omega

theorem runUpEvents_target (step : Nat) :
    ∀ (es : List (Nat × Nat)) (t ld lu : Nat), t ≤ 500 → validSeq lu es →
      (runUpEvents step ⟨t, ld, lu, true, true⟩ es).manualTargetPower =
        min 500 (t + es.length * step) := by
  intro es
  induction es with
  | nil =>
    intro t ld lu ht _
    simp [runUpEvents]
    omega
  | cons e es ih =>
    intro t ld lu ht hv
    rw [validSeq] at hv
    obtain ⟨h1, h2, h3, h4⟩ := hv
    rw [runUpEvents,
      pressReleaseUp_spec step e.1 e.2 t ld lu (by omega) h2 h3 ht,
      ih (min 500 (t + step)) ld e.1 (by omega) h4]
    simp only [List.length_cons, Nat.succ_mul]
    omega

/-! ## C8: manual-mode stepping and output -/

/-- C8: a validated press-then-release on the decrement (resp. increment)
input changes the target power by exactly `-step` (resp. `+step`) clamped
to `[50, 500]`; a sequence of `N` such events spaced beyond the debounce
window changes it by exactly `N * step`, clamped to `[50, 500]`; and in
manual mode the per-tick output power equals the target power exactly, with
no fluctuation applied. -/
theorem claim_C8_theorem :
    (∀ (step p r : Nat) (s : ManualState),
      s.buttonDownLastState = true → s.buttonUpLastState = true →
      50 ≤ s.manualTargetPower →
      s.lastButtonPressDown + 200 < p → p + 50 < r → r < p + 200 →
      (pressReleaseDown step p r s).manualTargetPower =
        max 50 (s.manualTargetPower - step)) ∧
    (∀ (step p r : Nat) (s : ManualState),
      s.buttonDownLastState = true → s.buttonUpLastState = true →
      s.manualTargetPower ≤ 500 →
      s.lastButtonPressUp + 200 < p → p + 50 < r → r < p + 200 →
      (pressReleaseUp step p r s).manualTargetPower =
        min 500 (s.manualTargetPower + step)) ∧
    (∀ (step : Nat) (es : List (Nat × Nat)) (s : ManualState),
      s.buttonDownLastState = true → s.buttonUpLastState = true →
      50 ≤ s.manualTargetPower → validSeq s.lastButtonPressDown es →
      (runDownEvents step s es).manualTargetPower =
        max 50 (s.manualTargetPower - es.length * step)) ∧
    (∀ (step : Nat) (es : List (Nat × Nat)) (s : ManualState),
      s.buttonDownLastState = true → s.buttonUpLastState = true →
      s.manualTargetPower ≤ 500 → validSeq s.lastButtonPressUp es →
      (runUpEvents step s es).manualTargetPower =
        min 500 (s.manualTargetPower + es.length * step)) ∧
    (∀ (total target now : Nat) (s : SimState), s.workoutActive = true →
      ¬ total ≤ (now - s.workoutStartTime) / 1000 →
      (updateValuesManual total target now s).power = target) := by
  refine ⟨?_, ?_, ?_, ?_, ?_⟩
  · intro step p r s hbd hbu ht hdeb h50 h200
    obtain ⟨t, ld, lu, bd, bu⟩ := s
    simp only at hbd hbu ht hdeb
    subst hbd hbu
    rw [pressReleaseDown_spec step p r t ld lu (by omega) h50 h200 ht]
  · intro step p r s hbd hbu ht hdeb h50 h200
    obtain ⟨t, ld, lu, bd, bu⟩ := s
    simp only at hbd hbu ht hdeb
    subst hbd hbu
    rw [pressReleaseUp_spec step p r t ld lu (by omega) h50 h200 ht]
  · intro step es s hbd hbu ht hv
    obtain ⟨t, ld, lu, bd, bu⟩ := s
    simp only at hbd hbu ht hv ⊢
    subst hbd hbu
    exact runDownEvents_target step es t ld lu ht hv
  · intro step es s hbd hbu ht hv
    obtain ⟨t, ld, lu, bd, bu⟩ := s
    simp only at hbd hbu ht hv ⊢
    subst hbd hbu
    exact runUpEvents_target step es t ld lu ht hv
  · intro total target now s hact hfin
    simp only [updateValuesManual, hact]
    rw [if_neg (by simp), if_neg hfin]
    simp only [stepCadence_power]

/-- C8, witness: one decrement, one increment, two spaced decrements, two
spaced increments, and the manual tick output. -/
theorem claim_C8_witness :
    (pressReleaseDown 10 300 400 ⟨200, 0, 0, true, true⟩).manualTargetPower =
      max 50 (200 - 10) ∧
    (pressReleaseUp 10 300 400 ⟨200, 0, 0, true, true⟩).manualTargetPower =
      min 500 (200 + 10) ∧
    (runDownEvents 10 ⟨200, 0, 0, true, true⟩
        [(300, 400), (600, 700)]).manualTargetPower =
      max 50 (200 - [(300, 400), (600, 700)].length * 10) ∧
    (runUpEvents 10 ⟨200, 0, 0, true, true⟩
        [(300, 400), (600, 700)]).manualTargetPower =
      min 500 (200 + [(300, 400), (600, 700)].length * 10) ∧
    (updateValuesManual 60 230 500 (startWorkout 0)).power = 230 :=
  ⟨claim_C8_theorem.1 10 300 400 ⟨200, 0, 0, true, true⟩ rfl rfl (by norm_num)
      (by norm_num) (by norm_num) (by norm_num),
    claim_C8_theorem.2.1 10 300 400 ⟨200, 0, 0, true, true⟩ rfl rfl
      (by norm_num) (by norm_num) (by norm_num) (by norm_num),
    claim_C8_theorem.2.2.1 10 [(300, 400), (600, 700)]
      ⟨200, 0, 0, true, true⟩ rfl rfl (by norm_num)
      (by rw [validSeq]; refine ⟨by norm_num, by norm_num, by norm_num, ?_⟩;
          rw [validSeq]; exact ⟨by norm_num, by norm_num, by norm_num, trivial⟩),
    claim_C8_theorem.2.2.2.1 10 [(300, 400), (600, 700)]
      ⟨200, 0, 0, true, true⟩ rfl rfl (by norm_num)
      (by rw [validSeq]; refine ⟨by norm_num, by norm_num, by norm_num, ?_⟩;
          rw [validSeq]; exact ⟨by norm_num, by norm_num, by norm_num, trivial⟩),
    claim_C8_theorem.2.2.2.2 60 230 500 (startWorkout 0) rfl (by decide)⟩

/-! ## C10: long presses and the debounce window -/

/-- C10, amended: a press held for 200 ms or longer before release never
changes the target power; and a power step is triggered only when the
release falls 50–200 ms (exclusive) after the last *recorded*
(debounce-accepted) press — which is the new press when it came more than
200 ms after the previous recorded one, and the older recorded press
otherwise.  In particular the release is always within 200 ms of the
physical press, but a step can fire with a press-to-release interval of
50 ms or less when a rapid re-press left the recorded press time stale
(see the counterexample). -/
theorem claim_C10_theorem (step p r : Nat) (s : ManualState)
    (hbd : s.buttonDownLastState = true) (hbu : s.buttonUpLastState = true)
    (hld : s.lastButtonPressDown ≤ p) (hpr : p ≤ r) :
    (p + 200 ≤ r →
      (pressReleaseDown step p r s).manualTargetPower =
        s.manualTargetPower) ∧
    ((pressReleaseDown step p r s).manualTargetPower ≠
        s.manualTargetPower →
      50 < r - (if 200 < p - s.lastButtonPressDown then p
        else s.lastButtonPressDown) ∧
      r - (if 200 < p - s.lastButtonPressDown then p
        else s.lastButtonPressDown) < 200 ∧
      r - p < 200) := by
  obtain ⟨t, ld, lu, bd, bu⟩ := s
  simp only at hbd hbu hld ⊢
  subst hbd hbu
  by_cases hc1 : 200 < p - ld
  · rw [if_pos hc1]
    constructor
    · intro hlong
      have hno : ¬ (r - p < 200) := by omega
      simp [pressReleaseDown, handleManualButtons, hc1, hno]
    · intro hchange
      by_cases hc2a : 50 < r - p
      · by_cases hc2b : r - p < 200
        · exact ⟨hc2a, hc2b, by omega⟩
        · exact absurd
            (by simp [pressReleaseDown, handleManualButtons, hc1, hc2b])
            hchange
      · exact absurd
          (by simp [pressReleaseDown, handleManualButtons, hc1, hc2a])
          hchange
  · rw [if_neg hc1]
    constructor
    · intro hlong
      have hno : ¬ (r - ld < 200) := by omega
      simp [pressReleaseDown, handleManualButtons, hc1, hno]
    · intro hchange
      by_cases hc2a : 50 < r - ld
      · by_cases hc2b : r - ld < 200
        · exact ⟨hc2a, hc2b, by omega⟩
        · exact absurd
            (by simp [pressReleaseDown, handleManualButtons, hc1, hc2b])
            hchange
      · exact absurd
          (by simp [pressReleaseDown, handleManualButtons, hc1, hc2a])
          hchange

/-- C10, witness: a press at 300 ms held until 600 ms leaves the target
power unchanged. -/
theorem claim_C10_witness :
    (pressReleaseDown 10 300 600
        ⟨200, 0, 0, true, true⟩).manualTargetPower =
      (⟨200, 0, 0, true, true⟩ : ManualState).manualTargetPower :=
  (claim_C10_theorem 10 300 600 ⟨200, 0, 0, true, true⟩ rfl rfl (by norm_num)
    (by norm_num)).1 (by norm_num)

/-- C10, counterexample: from the boot state, a press at 300 ms is recorded;
its release at 310 ms (held 10 ms) changes nothing; a re-press at 400 ms is
within the 200 ms debounce window, so the recorded press time stays 300;
the release at 430 ms is 130 ms after the *recorded* press and fires a
step — although the physical press-to-release interval is only 30 ms, not
strictly between 50 ms and 200 ms as the claim requires. -/
theorem claim_C10_counterexample :
    (handleManualButtons 10 430 true true
      (handleManualButtons 10 400 false true
        (handleManualButtons 10 310 true true
          (handleManualButtons 10 300 false true
            ⟨200, 0, 0, true, true⟩)))).manualTargetPower = 190 ∧
    430 - 400 < 50 := by decide
